import Mathlib

/-!
Verification of the InfiniteRadio audio core: a shallow embedding of the
pipeline, crossfade, decoder, broadcaster, scheduler and genre graph, with
theorems settling the specified properties.

Conventions: Go `int16` samples are embedded as `ℤ`; Go `float64`
arithmetic on samples is embedded as exact `ℚ` arithmetic; Go's
float-to-int conversion (round toward zero) is `ratTrunc`; Go
`time.Duration` is a count of nanoseconds (`ℕ`); Go `uint64` arithmetic
is `ℕ` reduced `% 2^64` at each wrapping operation.
-/

namespace InfiniteRadio

/-! ## Frame model (internal/audio/audio.go) -/

def SampleRate : ℕ := 48000
def Channels : ℕ := 2
def FrameSize : ℕ := 960
def FrameSamples : ℕ := FrameSize * Channels

/-! ## Crossfade (internal/audio/crossfade.go) -/

/-- `Smoothstep` from crossfade.go: clamp to [0,1], else `t*t*(3-2t)`. -/
def Smoothstep (t : ℚ) : ℚ :=
  if t ≤ 0 then 0
  else if 1 ≤ t then 1
  else t * t * (3 - 2 * t)

/-- Go float64-to-int16 conversion for an in-range value: round toward zero. -/
def ratTrunc (q : ℚ) : ℤ :=
  if 0 ≤ q then ⌊q⌋ else -⌊-q⌋

/-- The per-sample clip-then-convert step of `CrossfadeFrames`. -/
def clipSample (mixed : ℚ) : ℤ :=
  if mixed > 32767 then 32767
  else if mixed < -32768 then -32768
  else ratTrunc mixed

/-- `CrossfadeFrames` from crossfade.go: blend outgoing with incoming at
`progress` under the smoothstep gain, clipping each mixed sample to the
int16 range. -/
def CrossfadeFrames (outgoing incoming : List ℤ) (progress : ℚ) : List ℤ :=
  let gain := Smoothstep progress
  List.zipWith (fun o i : ℤ => clipSample ((o : ℚ) * (1 - gain) + (i : ℚ) * gain))
    outgoing incoming

theorem smoothstep_poly (t : ℚ) (h0 : 0 ≤ t) (h1 : t ≤ 1) :
    Smoothstep t = t ^ 2 * (3 - 2 * t) := by
  unfold Smoothstep
  split
  · have : t = 0 := le_antisymm (by assumption) h0
    subst this; norm_num
  · split
    · have : t = 1 := le_antisymm h1 (by assumption)
      subst this; norm_num
    · ring

theorem smoothstep_clamp_lo (t : ℚ) (h : t < 0) : Smoothstep t = 0 := by
  unfold Smoothstep
  rw [if_pos h.le]

theorem smoothstep_clamp_hi (t : ℚ) (h : 1 < t) : Smoothstep t = 1 := by
  unfold Smoothstep
  rw [if_neg (by linarith), if_pos h.le]

theorem smoothstep_mono (s t : ℚ) (hs : 0 ≤ s) (hst : s ≤ t) (ht : t ≤ 1) :
    Smoothstep s ≤ Smoothstep t := by
  rw [smoothstep_poly s hs (hst.trans ht), smoothstep_poly t (hs.trans hst) ht]
  nlinarith [mul_nonneg (sub_nonneg.mpr hst) (mul_nonneg hs (sub_nonneg.mpr (hst.trans ht))),
    mul_nonneg (sub_nonneg.mpr hst) (mul_nonneg (hs.trans hst) (sub_nonneg.mpr ht)),
    mul_nonneg (mul_nonneg (sub_nonneg.mpr hst) (sub_nonneg.mpr hst)) (hs.trans hst),
    mul_nonneg (mul_nonneg (sub_nonneg.mpr hst) (sub_nonneg.mpr hst)) (sub_nonneg.mpr ht)]

theorem smoothstep_poly_symm (x : ℚ) :
    x ^ 2 * (3 - 2 * x) + (1 - x) ^ 2 * (3 - 2 * (1 - x)) = 1 := by ring

theorem smoothstep_zero : Smoothstep 0 = 0 := by norm_num [Smoothstep]

theorem smoothstep_one : Smoothstep 1 = 1 := by norm_num [Smoothstep]

theorem smoothstep_symm (d : ℚ) (h0 : 0 ≤ d) (h1 : d ≤ 1 / 2) :
    Smoothstep (1 / 2 + d) + Smoothstep (1 / 2 - d) = 1 := by
  rw [smoothstep_poly (1 / 2 + d) (by linarith) (by linarith),
    smoothstep_poly (1 / 2 - d) (by linarith) (by linarith)]
  have := smoothstep_poly_symm (1 / 2 + d)
  have h : (1 : ℚ) - (1 / 2 + d) = 1 / 2 - d := by ring
  rw [h] at this
  exact this

/-- C3: `Smoothstep` equals the clamped cubic `t²(3 − 2t)`, is monotone
non-decreasing on [0,1], has endpoints 0 and 1, and is symmetric about
(1/2, 1/2). -/
theorem smoothstep_spec :
    (∀ t : ℚ, 0 ≤ t → t ≤ 1 → Smoothstep t = t ^ 2 * (3 - 2 * t)) ∧
    (∀ t : ℚ, t < 0 → Smoothstep t = 0) ∧
    (∀ t : ℚ, 1 < t → Smoothstep t = 1) ∧
    (∀ s t : ℚ, 0 ≤ s → s ≤ t → t ≤ 1 → Smoothstep s ≤ Smoothstep t) ∧
    Smoothstep 0 = 0 ∧ Smoothstep 1 = 1 ∧
    (∀ d : ℚ, 0 ≤ d → d ≤ 1 / 2 →
      Smoothstep (1 / 2 + d) + Smoothstep (1 / 2 - d) = 1) := by
  exact ⟨smoothstep_poly, smoothstep_clamp_lo, smoothstep_clamp_hi,
    smoothstep_mono, smoothstep_zero, smoothstep_one, smoothstep_symm⟩

/-- C3 witness: the spec evaluated at concrete points. -/
theorem smoothstep_spec_witness :
    Smoothstep (1 / 4) = (1 / 4 : ℚ) ^ 2 * (3 - 2 * (1 / 4)) ∧
    Smoothstep (1 / 4) ≤ Smoothstep (3 / 4) ∧
    Smoothstep (1 / 2 + 1 / 4) + Smoothstep (1 / 2 - 1 / 4) = 1 :=
  ⟨smoothstep_spec.1 (1 / 4) (by norm_num) (by norm_num),
   smoothstep_spec.2.2.2.1 (1 / 4) (3 / 4) (by norm_num) (by norm_num) (by norm_num),
   smoothstep_spec.2.2.2.2.2.2 (1 / 4) (by norm_num) (by norm_num)⟩

theorem ratTrunc_intCast (a : ℤ) : ratTrunc (a : ℚ) = a := by
  unfold ratTrunc
  split
  · exact Int.floor_intCast a
  · rw [show (-(a : ℚ)) = ((-a : ℤ) : ℚ) by push_cast; ring, Int.floor_intCast]
    ring

theorem clipSample_intCast (a : ℤ) (h1 : -32768 ≤ a) (h2 : a ≤ 32767) :
    clipSample (a : ℚ) = a := by
  unfold clipSample
  rw [if_neg (not_lt.mpr (by exact_mod_cast h2)),
    if_neg (not_lt.mpr (by exact_mod_cast h1))]
  exact ratTrunc_intCast a

theorem clipSample_range (q : ℚ) : -32768 ≤ clipSample q ∧ clipSample q ≤ 32767 := by
  unfold clipSample
  split
  · norm_num
  · split
    · norm_num
    · rename_i hhi hlo
      have hq1 : q ≤ 32767 := not_lt.mp hhi
      have hq2 : -32768 ≤ q := not_lt.mp hlo
      unfold ratTrunc
      split
      · rename_i h0
        constructor
        · have : (0 : ℤ) ≤ ⌊q⌋ := Int.floor_nonneg.mpr h0
          omega
        · calc ⌊q⌋ ≤ ⌊(32767 : ℚ)⌋ := Int.floor_le_floor hq1
            _ = 32767 := by norm_num
      · rename_i h0
        push_neg at h0
        constructor
        · have : ⌊-q⌋ ≤ ⌊(32768 : ℚ)⌋ := Int.floor_le_floor (by linarith)
          have h32 : ⌊(32768 : ℚ)⌋ = 32768 := by norm_num
          omega
        · have : (0 : ℤ) ≤ ⌊-q⌋ := Int.floor_nonneg.mpr (by linarith)
          omega

theorem zipWith_eq_left {f : ℤ → ℤ → ℤ} :
    ∀ (a b : List ℤ), a.length = b.length →
    (∀ x ∈ a, ∀ y ∈ b, f x y = x) → List.zipWith f a b = a
  | [], [], _, _ => rfl
  | [], _ :: _, h, _ => by simp at h
  | _ :: _, [], h, _ => by simp at h
  | x :: xs, y :: ys, h, hf => by
    simp only [List.zipWith_cons_cons]
    rw [hf x (List.mem_cons_self _ _) y (List.mem_cons_self _ _),
      zipWith_eq_left xs ys (by simpa using h)
        (fun u hu v hv => hf u (List.mem_cons_of_mem _ hu) v (List.mem_cons_of_mem _ hv))]

theorem zipWith_eq_right {f : ℤ → ℤ → ℤ} :
    ∀ (a b : List ℤ), a.length = b.length →
    (∀ x ∈ a, ∀ y ∈ b, f x y = y) → List.zipWith f a b = b
  | [], [], _, _ => rfl
  | [], _ :: _, h, _ => by simp at h
  | _ :: _, [], h, _ => by simp at h
  | x :: xs, y :: ys, h, hf => by
    simp only [List.zipWith_cons_cons]
    rw [hf x (List.mem_cons_self _ _) y (List.mem_cons_self _ _),
      zipWith_eq_right xs ys (by simpa using h)
        (fun u hu v hv => hf u (List.mem_cons_of_mem _ hu) v (List.mem_cons_of_mem _ hv))]

theorem mem_zipWith {f : ℤ → ℤ → ℤ} :
    ∀ {a b : List ℤ} {x : ℤ}, x ∈ List.zipWith f a b → ∃ u v, x = f u v
  | [], _, x, h => by simp [List.zipWith] at h
  | _ :: _, [], x, h => by simp [List.zipWith] at h
  | u :: us, v :: vs, x, h => by
    simp only [List.zipWith_cons_cons, List.mem_cons] at h
    rcases h with h | h
    · exact ⟨u, v, h⟩
    · exact mem_zipWith h

theorem crossfade_zero (a b : List ℤ) (hlen : a.length = b.length)
    (ha : ∀ x ∈ a, -32768 ≤ x ∧ x ≤ 32767) :
    CrossfadeFrames a b 0 = a := by
  unfold CrossfadeFrames
  rw [smoothstep_zero]
  exact zipWith_eq_left a b hlen (fun x hx y _ => by
    rw [show (x : ℚ) * (1 - 0) + (y : ℚ) * 0 = (x : ℚ) by ring]
    exact clipSample_intCast x (ha x hx).1 (ha x hx).2)

theorem crossfade_one (a b : List ℤ) (hlen : a.length = b.length)
    (hb : ∀ x ∈ b, -32768 ≤ x ∧ x ≤ 32767) :
    CrossfadeFrames a b 1 = b := by
  unfold CrossfadeFrames
  rw [smoothstep_one]
  exact zipWith_eq_right a b hlen (fun x _ y hy => by
    rw [show (x : ℚ) * (1 - 1) + (y : ℚ) * 1 = (y : ℚ) by ring]
    exact clipSample_intCast y (hb y hy).1 (hb y hy).2)

theorem crossfade_range (a b : List ℤ) (p : ℚ) (x : ℤ)
    (hx : x ∈ CrossfadeFrames a b p) : -32768 ≤ x ∧ x ≤ 32767 := by
  unfold CrossfadeFrames at hx
  obtain ⟨u, v, rfl⟩ := mem_zipWith hx
  exact clipSample_range _

theorem crossfade_midpoint :
    CrossfadeFrames [1000, -1000] [3000, -3000] (1 / 2) = [2000, -2000] := by
  have hg : Smoothstep (1 / 2) = 1 / 2 := by
    rw [smoothstep_poly (1 / 2) (by norm_num) (by norm_num)]; norm_num
  simp only [CrossfadeFrames, hg, List.zipWith]
  norm_num [clipSample, ratTrunc]

/-- C2: crossfade at progress 0 returns the outgoing frame, at progress 1
the incoming frame; every output sample is within the int16 range for any
progress; and the midpoint of [1000,−1000] vs [3000,−3000] is
[2000,−2000]. -/
theorem crossfade_spec (a b : List ℤ) (hlen : a.length = b.length)
    (ha : ∀ x ∈ a, -32768 ≤ x ∧ x ≤ 32767)
    (hb : ∀ x ∈ b, -32768 ≤ x ∧ x ≤ 32767) :
    CrossfadeFrames a b 0 = a ∧ CrossfadeFrames a b 1 = b ∧
    (∀ (p : ℚ) (x : ℤ), x ∈ CrossfadeFrames a b p → -32768 ≤ x ∧ x ≤ 32767) ∧
    CrossfadeFrames [1000, -1000] [3000, -3000] (1 / 2) = [2000, -2000] :=
  ⟨crossfade_zero a b hlen ha, crossfade_one a b hlen hb,
   crossfade_range a b, crossfade_midpoint⟩

/-- C2 witness: the crossfade spec at a concrete pair of frames. -/
theorem crossfade_spec_witness :
    CrossfadeFrames [1000, -1000] [3000, -3000] 0 = [1000, -1000] ∧
    CrossfadeFrames [1000, -1000] [3000, -3000] 1 = [3000, -3000] ∧
    (∀ (p : ℚ) (x : ℤ), x ∈ CrossfadeFrames [1000, -1000] [3000, -3000] p →
      -32768 ≤ x ∧ x ≤ 32767) ∧
    CrossfadeFrames [1000, -1000] [3000, -3000] (1 / 2) = [2000, -2000] :=
  crossfade_spec [1000, -1000] [3000, -3000] (by decide)
    (by decide) (by decide)

/-! ## Pipeline playback (internal/audio/pipeline.go, playTrack) -/

/-- `totalFrames := len(samples) / FrameSamples` from playTrack. -/
def totalFramesOf (samples : List ℤ) : ℕ := samples.length / FrameSamples

/-- The slice `samples[i*FrameSamples : (i+1)*FrameSamples]`. -/
def frameAt (samples : List ℤ) (i : ℕ) : List ℤ :=
  (samples.drop (i * FrameSamples)).take FrameSamples

/-- Crossfade frame count from playTrack:
`cfFrames := int(p.crossfadeDur.Seconds()) * SampleRate / FrameSize`,
then clamped to `totalFrames/2`. `cfDurNs` is the duration in
nanoseconds; `int(Seconds())` truncates to whole seconds. -/
def cfFramesGo (cfDurNs totalFrames : ℕ) : ℕ :=
  if cfDurNs / 1000000000 * SampleRate / FrameSize > totalFrames / 2 then totalFrames / 2
  else cfDurNs / 1000000000 * SampleRate / FrameSize

/-- The frames one `playTrack` call emits, given the decoded samples, the
optional next decoded track available at the crossfade point, and the
starting frame index. Mirrors the three loops of playTrack: verbatim
frames `[startFrame, cfStart)`, then either the crossfade zone (with the
bounds-check `break`) or the verbatim tail `[cfStart, totalFrames)`. -/
def playTrackFrames (cfDurNs : ℕ) (samples : List ℤ) (next : Option (List ℤ))
    (startFrame : ℕ) : List (List ℤ) :=
  let totalFrames := totalFramesOf samples
  let cfFrames := cfFramesGo cfDurNs totalFrames
  let cfStart := totalFrames - cfFrames
  let pre := ((List.range cfStart).drop startFrame).map (frameAt samples)
  match next with
  | some nextSamples =>
      pre ++ ((List.range cfFrames).takeWhile (fun i =>
          decide ((cfStart + i) * FrameSamples + FrameSamples ≤ samples.length ∧
            i * FrameSamples + FrameSamples ≤ nextSamples.length))).map
        (fun i => CrossfadeFrames (frameAt samples (cfStart + i))
          (frameAt nextSamples i) ((i : ℚ) / (cfFrames : ℚ)))
  | none =>
      pre ++ ((List.range totalFrames).drop cfStart).map (frameAt samples)

theorem frameAt_length (samples : List ℤ) (i : ℕ)
    (h : (i + 1) * FrameSamples ≤ samples.length) :
    (frameAt samples i).length = FrameSamples := by
  unfold frameAt
  rw [List.length_take, List.length_drop]
  have hFS : FrameSamples = 1920 := by norm_num [FrameSamples, FrameSize, Channels]
  rw [hFS] at h ⊢
  omega

theorem crossfadeFrames_length (a b : List ℤ) (p : ℚ) :
    (CrossfadeFrames a b p).length = min a.length b.length := by
  unfold CrossfadeFrames
  exact List.length_zipWith _ _ _

theorem of_mem_takeWhile {α : Type} {p : α → Bool} :
    ∀ {l : List α} {x : α}, x ∈ l.takeWhile p → x ∈ l ∧ p x = true
  | [], x, h => by simp [List.takeWhile] at h
  | a :: l, x, h => by
    by_cases hp : p a = true
    · rw [List.takeWhile_cons_of_pos hp] at h
      rcases List.mem_cons.mp h with rfl | h
      · exact ⟨List.mem_cons_self _ _, hp⟩
      · exact ⟨List.mem_cons_of_mem _ (of_mem_takeWhile h).1, (of_mem_takeWhile h).2⟩
    · rw [List.takeWhile_cons_of_neg hp] at h
      simp at h

theorem frame_index_bound (samples : List ℤ) (i : ℕ) (h : i < totalFramesOf samples) :
    (i + 1) * FrameSamples ≤ samples.length := by
  have h1 : i + 1 ≤ samples.length / FrameSamples := h
  calc (i + 1) * FrameSamples ≤ samples.length / FrameSamples * FrameSamples :=
        Nat.mul_le_mul_right _ h1
    _ ≤ samples.length := Nat.div_mul_le_self _ _

/-- C1: every frame a `playTrack` call emits — verbatim or crossfaded —
has exactly 1920 samples; the trailing partial frame is never emitted. -/
theorem pipeline_frame_length (cfDurNs : ℕ) (samples : List ℤ)
    (next : Option (List ℤ)) (startFrame : ℕ)
    (hlen : 1920 ≤ samples.length) :
    ∀ f ∈ playTrackFrames cfDurNs samples next startFrame, f.length = 1920 := by
  intro f hf
  have hFS : FrameSamples = 1920 := by norm_num [FrameSamples, FrameSize, Channels]
  simp only [playTrackFrames] at hf
  have hcf_le : cfFramesGo cfDurNs (totalFramesOf samples) ≤ totalFramesOf samples := by
    unfold cfFramesGo
    split <;> omega
  rcases next with _ | nextSamples
  · simp only [List.mem_append, List.mem_map] at hf
    rcases hf with ⟨i, hi, rfl⟩ | ⟨i, hi, rfl⟩
    · have hi' : i < totalFramesOf samples := by
        have := List.mem_range.mp (List.mem_of_mem_drop hi)
        omega
      rw [frameAt_length samples i (frame_index_bound samples i hi')]
      exact hFS
    · have hi' : i < totalFramesOf samples := List.mem_range.mp (List.mem_of_mem_drop hi)
      rw [frameAt_length samples i (frame_index_bound samples i hi')]
      exact hFS
  · simp only [List.mem_append, List.mem_map] at hf
    rcases hf with ⟨i, hi, rfl⟩ | ⟨i, hi, rfl⟩
    · have hi' : i < totalFramesOf samples := by
        have := List.mem_range.mp (List.mem_of_mem_drop hi)
        omega
      rw [frameAt_length samples i (frame_index_bound samples i hi')]
      exact hFS
    · obtain ⟨_, hcond⟩ := of_mem_takeWhile hi
      rw [decide_eq_true_eq] at hcond
      obtain ⟨hout, hin⟩ := hcond
      rw [hFS] at hout hin
      rw [crossfadeFrames_length,
        frameAt_length samples _ (by rw [hFS]; omega),
        frameAt_length nextSamples _ (by rw [hFS]; omega)]
      simp [hFS]

/-- C1 witness: a concrete two-frame track (all zeros) with no next track
emits only frames of 1920 samples. -/
theorem pipeline_frame_length_witness :
    (1920 ≤ (List.replicate 3840 (0 : ℤ)).length) ∧
    ∀ f ∈ playTrackFrames 0 (List.replicate 3840 (0 : ℤ)) none 0, f.length = 1920 :=
  ⟨by rw [List.length_replicate]; norm_num,
   pipeline_frame_length 0 (List.replicate 3840 (0 : ℤ)) none 0
     (by rw [List.length_replicate]; norm_num)⟩

/-! ## Crossfade frame count (C4) -/

theorem cfFramesGo_base (ns : ℕ) :
    ns / 1000000000 * SampleRate / FrameSize = ns / 1000000000 * 50 := by
  show ns / 1000000000 * 48000 / 960 = ns / 1000000000 * 50
  rw [show (48000 : ℕ) = 50 * 960 by norm_num, ← Nat.mul_assoc,
    Nat.mul_div_cancel _ (by norm_num : (0 : ℕ) < 960)]

/-- C4 counterexample: with a 0.5 s crossfade duration and a 2-frame
track (3840 samples), the code computes 0 crossfade frames (it truncates
the duration to whole seconds before scaling), while the claimed formula
`min(floor(duration·50), N/2)` gives 1. -/
theorem cfFrames_claim_counterexample :
    cfFramesGo 500000000 (totalFramesOf (List.replicate 3840 (0 : ℤ))) = 0 ∧
    min (500000000 * 50 / 1000000000)
      (totalFramesOf (List.replicate 3840 (0 : ℤ)) / 2) = 1 ∧
    (0 : ℕ) ≠ 1 := by
  have ht : totalFramesOf (List.replicate 3840 (0 : ℤ)) = 2 := by
    rw [totalFramesOf, List.length_replicate]
    norm_num [FrameSamples, FrameSize, Channels]
  refine ⟨?_, ?_, by norm_num⟩
  · rw [ht]
    unfold cfFramesGo
    norm_num [SampleRate, FrameSize]
  · rw [ht]
    norm_num

/-- C4 (amended): the crossfade frame count equals
`min(floor(seconds(crossfade_duration)) · 50, N/2)` — the duration is
truncated to whole seconds before scaling by 50; in particular when that
base exceeds half the track the count is clamped to `N/2`. -/
theorem cfFrames_amended (ns N : ℕ) :
    cfFramesGo ns N = min (ns / 1000000000 * 50) (N / 2) ∧
    (N / 2 < ns / 1000000000 * 50 → cfFramesGo ns N = N / 2) := by
  unfold cfFramesGo
  rw [cfFramesGo_base]
  constructor
  · split
    · rename_i h
      exact (Nat.min_eq_right (by omega)).symm
    · rename_i h
      exact (Nat.min_eq_left (by omega)).symm
  · intro h
    rw [if_pos h]

/-- C4 witness: the amended formula at 8 s duration and a 1000-frame track. -/
theorem cfFrames_amended_witness :
    cfFramesGo 8000000000 1000 = min (8000000000 / 1000000000 * 50) (1000 / 2) ∧
    (1000 / 2 < 2000000000000 / 1000000000 * 50 →
      cfFramesGo 2000000000000 1000 = 1000 / 2) :=
  ⟨(cfFrames_amended 8000000000 1000).1, (cfFrames_amended 2000000000000 1000).2⟩

/-! ## Track naming (internal/autodj/prompts.go) -/

/-- UTF-8 byte encoding of one character (Go strings are byte sequences;
`trackID[i]` indexes bytes). -/
def utf8Bytes (c : Char) : List ℕ :=
  let n := c.toNat
  if n < 128 then [n]
  else if n < 2048 then [192 + n / 64, 128 + n % 64]
  else if n < 65536 then [224 + n / 4096, 128 + n / 64 % 64, 128 + n % 64]
  else [240 + n / 262144, 128 + n / 4096 % 64, 128 + n / 64 % 64, 128 + n % 64]

def strBytes (s : String) : List ℕ := (s.data.map utf8Bytes).flatten

/-- One step of the 64-bit FNV-1a loop from `trackHash`:
`h ^= b; h *= 1099511628211` with uint64 wrap-around. -/
def fnvStep (h b : ℕ) : ℕ := (h ^^^ b) * 1099511628211 % 2 ^ 64

/-- `trackHash` from prompts.go: FNV-1a over the full byte string. -/
def trackHash (s : String) : ℕ := (strBytes s).foldl fnvStep 14695981039346656037

/-- The `genreWords` map from prompts.go: adjective and noun pools per genre. -/
def genreWords (g : String) : Option (List String × List String) :=
  if g = "ambient" then some
    (["floating", "weightless", "still", "glacial", "infinite", "deep", "fading",
      "hollow", "drifting", "crystalline", "submerged", "distant"],
     ["void", "haze", "tide", "fog", "orbit", "breath", "glacier", "nebula",
      "silence", "expanse", "shimmer", "glow"])
  else if g = "chillwave" then some
    (["hazy", "sunlit", "faded", "dreamy", "pastel", "golden", "washed", "lazy",
      "coastal", "warm", "blurred", "muted"],
     ["shore", "sunset", "tape", "glow", "polaroid", "tide", "haze", "mirage",
      "breeze", "boardwalk", "bloom", "dusk"])
  else if g = "lofi hip hop" then some
    (["rainy", "dusty", "warm", "mellow", "quiet", "late", "sleepy", "dimmed",
      "faded", "cozy", "worn", "gentle"],
     ["vinyl", "pages", "windowsill", "lamp", "sketch", "rooftop", "notebook",
      "coffee", "curtain", "alley", "attic", "rain"])
  else if g = "jazz" then some
    (["smoky", "midnight", "velvet", "golden", "swinging", "dim", "warm", "slow",
      "dark", "cool", "muted", "rich"],
     ["keys", "brass", "lounge", "walk", "quarter", "glass", "satin", "room",
      "hour", "standard", "corner", "blue"])
  else if g = "bossa nova" then some
    (["coastal", "breezy", "gentle", "tropical", "swaying", "soft", "sunlit",
      "quiet", "warm", "easy", "languid", "tender"],
     ["terrace", "palm", "wave", "shade", "garden", "hammock", "cove", "balcony",
      "rain", "veranda", "island", "moon"])
  else if g = "acoustic folk" then some
    (["wooded", "fireside", "open", "rustic", "earthen", "amber", "weathered",
      "honest", "quiet", "still", "humble", "golden"],
     ["trail", "porch", "valley", "creek", "field", "timber", "lantern",
      "harvest", "meadow", "cabin", "ridge", "ember"])
  else if g = "classical" then some
    (["delicate", "flowing", "stately", "luminous", "grand", "serene", "noble",
      "graceful", "tender", "poised", "austere", "radiant"],
     ["sonata", "garden", "waltz", "aria", "hall", "portrait", "reverie",
      "promenade", "canon", "fountain", "minuet", "passage"])
  else if g = "cinematic" then some
    (["epic", "soaring", "vast", "rising", "thundering", "sweeping", "towering",
      "bold", "triumphant", "distant", "burning", "ancient"],
     ["horizon", "summit", "empire", "voyage", "fortress", "storm", "dawn",
      "exodus", "titan", "frontier", "requiem", "ascent"])
  else if g = "synthwave" then some
    (["neon", "chrome", "pulsing", "electric", "retro", "violet", "laser",
      "wired", "digital", "glowing", "turbo", "phantom"],
     ["grid", "drive", "signal", "circuit", "chase", "vector", "arcade",
      "skyline", "runner", "highway", "blade", "pulse"])
  else if g = "electronic" then some
    (["radiant", "surging", "prismatic", "kinetic", "orbital", "bright",
      "shifting", "fluid", "charged", "fractal", "rapid", "spectral"],
     ["pulse", "wave", "prism", "flux", "spark", "cluster", "sphere", "cascade",
      "node", "beam", "echo", "core"])
  else if g = "drum and bass" then some
    (["liquid", "rolling", "dark", "charged", "relentless", "deep", "fractured",
      "razor", "heavy", "rapid", "volatile", "fierce"],
     ["drop", "tunnel", "wire", "break", "concrete", "volt", "surge",
      "pressure", "edge", "shadow", "siren", "vortex"])
  else if g = "disco funk" then some
    (["groovy", "sparkling", "tight", "strutting", "vivid", "slick", "golden",
      "hot", "smooth", "electric", "funky", "glossy"],
     ["strut", "floor", "mirror", "roller", "glitter", "groove", "spin",
      "flash", "diva", "velvet", "fever", "step"])
  else if g = "indie rock" then some
    (["bright", "jangling", "wistful", "spirited", "raw", "loose", "restless",
      "hazy", "breezy", "sharp", "earnest", "warm"],
     ["rooftop", "highway", "postcard", "flicker", "coast", "detour", "signal",
      "garage", "daylight", "corner", "letter", "echo"])
  else if g = "rock" then some
    (["thunderous", "blazing", "driven", "roaring", "massive", "heavy",
      "fierce", "wild", "burning", "raw", "crushing", "loud"],
     ["anthem", "riff", "volt", "storm", "iron", "fuel", "hammer", "howl",
      "forge", "strike", "engine", "thunder"])
  else none

/-- `TrackName` from prompts.go: deterministic adjective-noun name from
the genre pools, indexed by the FNV-1a hash of the track ID. -/
def TrackName (genre trackID : String) : String :=
  if genre = "" ∨ trackID = "" then ""
  else
    match genreWords genre with
    | none => genre ++ " session"
    | some (adjs, nouns) =>
      if adjs.length = 0 then genre ++ " session"
      else
        adjs.getD (trackHash trackID % adjs.length) "" ++ " " ++
          nouns.getD (trackHash trackID / adjs.length % nouns.length) ""

/-- C5: `TrackName` is a pure function of its arguments; its hash is
FNV-1a over the full id; for a genre with pools it returns
`adj[h mod |adj|] ++ " " ++ noun[(h / |adj|) mod |noun|]`; an unknown
genre yields `genre ++ " session"` (so "polka" does); an empty argument
yields the empty string. -/
theorem trackName_spec :
    (∀ s : String,
      trackHash s = (strBytes s).foldl
        (fun h b => (h ^^^ b) * 1099511628211 % 2 ^ 64) 14695981039346656037) ∧
    (∀ g i : String, ∀ adjs nouns : List String, g ≠ "" → i ≠ "" →
      genreWords g = some (adjs, nouns) → adjs.length ≠ 0 →
      TrackName g i = adjs.getD (trackHash i % adjs.length) "" ++ " " ++
        nouns.getD (trackHash i / adjs.length % nouns.length) "") ∧
    (∀ g i : String, g ≠ "" → i ≠ "" → genreWords g = none →
      TrackName g i = g ++ " session") ∧
    TrackName "polka" "x" = "polka session" ∧
    (∀ g i : String, g = "" ∨ i = "" → TrackName g i = "") := by
  refine ⟨fun s => rfl, ?_, ?_, ?_, ?_⟩
  · intro g i adjs nouns hg hi hsome hlen
    unfold TrackName
    rw [if_neg (by simp [hg, hi]), hsome]
    simp only [if_neg hlen]
  · intro g i hg hi hnone
    unfold TrackName
    rw [if_neg (by simp [hg, hi]), hnone]
  · decide
  · intro g i h
    unfold TrackName
    rw [if_pos h]

/-- C5 witness: the name of a concrete ambient track is a non-empty
adjective-noun pair, and the degenerate cases behave as specified. -/
theorem trackName_spec_witness :
    TrackName "polka" "x" = "polka session" ∧
    TrackName "jazz" "" = "" ∧
    TrackName "ambient" "test-id-001" ≠ "" :=
  ⟨trackName_spec.2.2.2.1,
   trackName_spec.2.2.2.2 "jazz" "" (Or.inr rfl),
   by decide⟩

/-! ## Scheduler genre override (internal/autodj/scheduler.go) -/

/-- The scheduler state relevant to overrides: the current genre and the
content of the capacity-1 `genreOverrideCh`. -/
structure OverrideState where
  currentGenre : String
  overrideSlot : Option String
deriving DecidableEq

/-- `SetGenre`: non-blocking send on the one-slot override channel; when
the slot is already occupied, the `default` branch drops the new value. -/
def setGenre (s : OverrideState) (g : String) : OverrideState :=
  match s.overrideSlot with
  | none => { s with overrideSlot := some g }
  | some _ => s

/-- The drain step at the top of the scheduler's `Run` loop: receive at
most one pending override and make it the current genre. -/
def drainOverride (s : OverrideState) : OverrideState :=
  match s.overrideSlot with
  | some g => { currentGenre := g, overrideSlot := none }
  | none => s

/-- C6 counterexample: with the slot empty, submitting "rock" then
"ambient" before the run loop drains makes the run loop apply "rock" —
the oldest override, not the newest. -/
theorem setGenre_newest_counterexample :
    (drainOverride (setGenre (setGenre ⟨"jazz", none⟩ "rock") "ambient")).currentGenre
      = "rock" ∧
    ("rock" : String) ≠ "ambient" := by
  constructor
  · rfl
  · decide

/-- C6 (amended): `setGenre` never blocks (it is a total step function
modelling select-with-default); with the slot empty an override is
accepted, while any override submitted before the pending one is drained
is dropped, so the run loop applies the oldest pending override. -/
theorem setGenre_amended (s : OverrideState) (g g' x : String) :
    (s.overrideSlot = none → setGenre s g = { s with overrideSlot := some g }) ∧
    (s.overrideSlot = some x → setGenre s g = s) ∧
    (s.overrideSlot = none →
      (drainOverride (setGenre (setGenre s g) g')).currentGenre = g) := by
  refine ⟨fun h => ?_, fun h => ?_, fun h => ?_⟩
  · unfold setGenre
    rw [h]
  · unfold setGenre
    rw [h]
  · unfold setGenre
    rw [h]
    rfl

/-- C6 witness: the amended statement at a concrete state. -/
theorem setGenre_amended_witness :
    (setGenre ⟨"jazz", none⟩ "rock" = ⟨"jazz", some "rock"⟩) ∧
    (setGenre ⟨"jazz", some "rock"⟩ "ambient" = ⟨"jazz", some "rock"⟩) ∧
    (drainOverride (setGenre (setGenre ⟨"jazz", none⟩ "rock") "ambient")).currentGenre
      = "rock" :=
  ⟨(setGenre_amended ⟨"jazz", none⟩ "rock" "ambient" "rock").1 rfl,
   (setGenre_amended ⟨"jazz", some "rock"⟩ "ambient" "x" "rock").2.1 rfl,
   (setGenre_amended ⟨"jazz", none⟩ "rock" "ambient" "x").2.2 rfl⟩

/-! ## Pipeline skip semantics (internal/audio/pipeline.go, Skip/sendFrame) -/

/-- Pipeline state for skip semantics: whether a track is playing and how
many tokens the capacity-1 `skipCh` holds. -/
structure SkipState where
  playing : Bool
  skipTokens : ℕ
deriving DecidableEq

/-- `Skip()`: non-blocking send on the capacity-1 skip channel; the
`default` branch absorbs the call when the channel is full. -/
def skipOp (s : SkipState) : SkipState :=
  if s.skipTokens < 1 then { s with skipTokens := s.skipTokens + 1 } else s

/-- The playback loop dequeues a decoded track and starts playing it. -/
def startTrack (s : SkipState) : SkipState := { s with playing := true }

/-- One `sendFrame` tick: while playing, a pending skip token is consumed
and the rest of the track abandoned; otherwise the frame goes out. -/
def frameTick (s : SkipState) : SkipState :=
  if s.playing then
    (if s.skipTokens ≠ 0 then { playing := false, skipTokens := 0 } else s)
  else s

/-- The current track finishing naturally. -/
def endTrack (s : SkipState) : SkipState := { s with playing := false }

/-- Pipeline states reachable from the initial idle state under skip,
track start, frame ticks and track end. -/
inductive SkipReach : SkipState → Prop
  | init : SkipReach ⟨false, 0⟩
  | skip {s} : SkipReach s → SkipReach (skipOp s)
  | start {s} : SkipReach s → SkipReach (startTrack s)
  | tick {s} : SkipReach s → SkipReach (frameTick s)
  | finish {s} : SkipReach s → SkipReach (endTrack s)

/-- C7 counterexample: `skip()` while no track is playing is not a no-op:
it changes the state (a token becomes pending), and that token aborts the
next track at its first frame boundary, unlike the skip-free run. -/
theorem skip_idle_noop_counterexample :
    skipOp ⟨false, 0⟩ ≠ ⟨false, 0⟩ ∧
    (frameTick (startTrack (skipOp ⟨false, 0⟩))).playing = false ∧
    (frameTick (startTrack ⟨false, 0⟩)).playing = true := by
  refine ⟨?_, rfl, rfl⟩
  intro h
  simpa [skipOp] using congrArg SkipState.skipTokens h

/-- C7 (amended): in every reachable pipeline state at most one skip is
pending and a `skip()` while one is pending is absorbed; but a `skip()`
issued while no track is playing is not a no-op — it leaves one skip
pending, which aborts the next track at its first frame boundary. -/
theorem skip_amended (s : SkipState) :
    (SkipReach s → s.skipTokens ≤ 1) ∧
    (s.skipTokens = 1 → skipOp s = s) ∧
    (s.playing = false → s.skipTokens = 0 →
      (skipOp s).skipTokens = 1 ∧ (frameTick (startTrack (skipOp s))).playing = false) := by
  refine ⟨fun h => ?_, fun h => ?_, fun hp ht => ?_⟩
  · induction h with
    | init => exact Nat.zero_le 1
    | skip _ ih =>
      unfold skipOp
      split
      · rename_i hlt
        exact Nat.succ_le_succ (Nat.le_of_lt_succ hlt)
      · exact ih
    | start _ ih => exact ih
    | tick _ ih =>
      unfold frameTick
      split
      · split
        · exact Nat.zero_le 1
        · exact ih
      · exact ih
    | finish _ ih => exact ih
  · unfold skipOp
    rw [h]
    norm_num
  · constructor
    · unfold skipOp
      rw [ht]
      norm_num
    · unfold skipOp startTrack frameTick
      rw [ht]
      norm_num

/-- C7 witness: the amended statement at the initial idle state. -/
theorem skip_amended_witness :
    (⟨false, 0⟩ : SkipState).skipTokens ≤ 1 ∧
    skipOp ⟨true, 1⟩ = ⟨true, 1⟩ ∧
    ((skipOp ⟨false, 0⟩).skipTokens = 1 ∧
      (frameTick (startTrack (skipOp ⟨false, 0⟩))).playing = false) :=
  ⟨(skip_amended ⟨false, 0⟩).1 SkipReach.init,
   (skip_amended ⟨true, 1⟩).2.1 rfl,
   (skip_amended ⟨false, 0⟩).2.2 rfl rfl⟩

/-! ## Decoder post-processing (internal/audio/decoder.go) -/

/-- Little-endian byte pair to a signed 16-bit sample. -/
def bytesToSample (lo hi : ℕ) : ℤ :=
  if lo + 256 * hi < 32768 then (lo : ℤ) + 256 * hi
  else (lo : ℤ) + 256 * hi - 65536

/-- `if len(out)%2 != 0 { out = out[:len(out)-1] }` from `DecodeFile`. -/
def trimEven (raw : List ℕ) : List ℕ :=
  if raw.length % 2 = 0 then raw else raw.dropLast

/-- The byte-pair-to-sample conversion loop of `DecodeFile`. -/
def pairSamples : List ℕ → List ℤ
  | lo :: hi :: rest => bytesToSample lo hi :: pairSamples rest
  | _ => []

/-- `DecodeFile`'s post-processing of the raw decoded byte stream. -/
def decodeSamples (raw : List ℕ) : List ℤ := pairSamples (trimEven raw)

theorem pairSamples_length : ∀ l : List ℕ, (pairSamples l).length = l.length / 2
  | [] => by simp [pairSamples]
  | [_] => by simp [pairSamples]
  | lo :: hi :: rest => by
    rw [show pairSamples (lo :: hi :: rest) = bytesToSample lo hi :: pairSamples rest
      from rfl]
    simp only [List.length_cons, pairSamples_length rest]
    omega

/-- C9 counterexample: a 2-byte raw stream decodes to a single sample, so
the returned sample buffer's length is not a multiple of 2. -/
theorem decode_even_counterexample :
    (decodeSamples [0, 0]).length = 1 ∧ ¬ (2 ∣ (decodeSamples [0, 0]).length) := by
  constructor
  · rfl
  · rw [show (decodeSamples [0, 0]).length = 1 from rfl]
    decide

/-- C9 (amended): the byte stream actually converted has even length —
any trailing odd byte is discarded — and the returned sample buffer has
`floor(raw_bytes / 2)` samples. -/
theorem decode_amended (raw : List ℕ) :
    2 ∣ (trimEven raw).length ∧ (decodeSamples raw).length = raw.length / 2 := by
  constructor
  · unfold trimEven
    split
    · omega
    · rw [List.length_dropLast]
      omega
  · unfold decodeSamples
    rw [pairSamples_length]
    unfold trimEven
    split
    · rfl
    · rw [List.length_dropLast]
      omega

/-- C9 witness: the amended statement on a 3-byte raw stream. -/
theorem decode_amended_witness :
    2 ∣ (trimEven [1, 2, 3]).length ∧ (decodeSamples [1, 2, 3]).length = 3 / 2 :=
  decode_amended [1, 2, 3]

/-! ## Broadcaster (internal/stream/broadcaster.go) -/

/-- The per-listener queue capacity from `Subscribe` (`make(chan []int16, 150)`). -/
def listenerCap : ℕ := 150

/-- The non-blocking send of `Run`'s fan-out pass to one listener: a full
queue drops the frame for that listener. -/
def offerFrame (frame : List ℤ) (q : List (List ℤ)) : List (List ℤ) :=
  if q.length < listenerCap then q ++ [frame] else q

/-- One fan-out pass of `Run`: offer the frame to every listener. -/
def broadcastFrame (frame : List ℤ) (ls : List (List (List ℤ))) :
    List (List (List ℤ)) :=
  ls.map (offerFrame frame)

/-- The broadcaster's run loop over a finite source of frames. -/
def broadcastRun (source : List (List ℤ)) (ls : List (List (List ℤ))) :
    List (List (List ℤ)) :=
  source.foldl (fun acc f => broadcastFrame f acc) ls

theorem offerFrame_le (frame : List ℤ) (q : List (List ℤ))
    (h : q.length ≤ listenerCap) : (offerFrame frame q).length ≤ listenerCap := by
  unfold offerFrame
  split
  · rename_i hlt
    rw [List.length_append]
    simpa using hlt
  · exact h

theorem broadcastRun_le : ∀ (source : List (List ℤ)) (ls : List (List (List ℤ))),
    (∀ q ∈ ls, q.length ≤ listenerCap) →
    ∀ q ∈ broadcastRun source ls, q.length ≤ listenerCap
  | [], ls, h => h
  | f :: rest, ls, h => by
    have hstep : ∀ q ∈ broadcastFrame f ls, q.length ≤ listenerCap := by
      intro q hq
      obtain ⟨q₀, hq₀, rfl⟩ := List.mem_map.mp hq
      exact offerFrame_le f q₀ (h q₀ hq₀)
    exact broadcastRun_le rest (broadcastFrame f ls) hstep

/-- C8: every listener queue stays within 150 frames across any run that
starts from queues within the bound (subscribers start empty); in a
fan-out pass each listener's queue is updated independently of the
others: a full queue silently drops the frame for that listener only, a
non-full queue receives it, and listener `i`'s new queue is a function of
listener `i`'s old queue alone. -/
theorem broadcaster_spec (source : List (List ℤ)) (ls : List (List (List ℤ)))
    (hls : ∀ q ∈ ls, q.length ≤ 150) :
    (∀ q ∈ broadcastRun source ls, q.length ≤ 150) ∧
    (∀ (f : List ℤ) (q : List (List ℤ)), q.length = 150 → offerFrame f q = q) ∧
    (∀ (f : List ℤ) (q : List (List ℤ)), q.length < 150 → offerFrame f q = q ++ [f]) ∧
    (∀ (f : List ℤ) (ls' : List (List (List ℤ))) (i : ℕ),
      (broadcastFrame f ls')[i]? = (ls'[i]?).map (offerFrame f)) := by
  refine ⟨broadcastRun_le source ls hls, fun f q h => ?_, fun f q h => ?_, fun f ls' i => ?_⟩
  · unfold offerFrame listenerCap
    rw [if_neg (by omega)]
  · unfold offerFrame listenerCap
    rw [if_pos h]
  · unfold broadcastFrame
    exact List.getElem?_map (offerFrame f) ls' i

/-- C8 witness: a slow listener's full queue keeps its 150 frames and a
reading listener's empty queue receives the frame, in the same pass. -/
theorem broadcaster_spec_witness :
    (∀ q ∈ broadcastRun [[0]] [[]], q.length ≤ 150) ∧
    offerFrame [0] (List.replicate 150 []) = List.replicate 150 [] ∧
    offerFrame [0] [] = [] ++ [[0]] ∧
    (broadcastFrame [0] [[]])[0]? = (([[]] : List (List (List ℤ)))[0]?).map (offerFrame [0]) :=
  ⟨(broadcaster_spec [[0]] [[]] (by intro q hq; simp_all)).1,
   (broadcaster_spec [] [] (by intro q hq; simp_all)).2.1 [0] (List.replicate 150 [])
     (by rw [List.length_replicate]),
   (broadcaster_spec [] [] (by intro q hq; simp_all)).2.2.1 [0] [] (by norm_num),
   (broadcaster_spec [] [] (by intro q hq; simp_all)).2.2.2 [0] [[]] 0⟩

/-! ## Genre graph (internal/autodj/genres.go) -/

/-- `MoodGraph` from genres.go as an association list from genre name to
its adjacency list. -/
def MoodGraph : List (String × List String) :=
  [("ambient", ["chillwave", "classical"]),
   ("chillwave", ["ambient", "lofi hip hop", "classical", "synthwave"]),
   ("lofi hip hop", ["chillwave", "jazz"]),
   ("jazz", ["lofi hip hop", "bossa nova", "acoustic folk"]),
   ("bossa nova", ["jazz"]),
   ("acoustic folk", ["jazz"]),
   ("classical", ["ambient", "chillwave", "cinematic"]),
   ("cinematic", ["classical", "indie rock"]),
   ("synthwave", ["chillwave", "electronic", "indie rock"]),
   ("electronic", ["synthwave", "drum and bass", "disco funk"]),
   ("drum and bass", ["electronic"]),
   ("disco funk", ["electronic", "rock"]),
   ("indie rock", ["cinematic", "synthwave", "rock"]),
   ("rock", ["indie rock", "disco funk"])]

/-- The adjacency list of a genre (empty for unknown genres). -/
def adjacentOf (g : String) : List String :=
  ((MoodGraph.find? (fun e => e.1 == g)).map Prod.snd).getD []

/-- All genre names of the mood graph. -/
def genreNames : List String := MoodGraph.map Prod.fst

/-- One step of breadth-first expansion along graph edges. -/
def expandReach (frontier : List String) : List String :=
  (frontier ++ (frontier.map adjacentOf).flatten).dedup

/-- The set of genres reachable from `g` along edges (14 expansion steps
saturate a 14-node graph). -/
def reachFrom (g : String) : List String := Nat.iterate expandReach 14 [g]

/-- C10: the mood graph has exactly 14 genres; every listed neighbour is a
genre; adjacency is symmetric; every genre has at least one neighbour; and
every genre is reachable from every genre along edges. -/
theorem mood_graph_spec :
    MoodGraph.length = 14 ∧
    (∀ a ∈ genreNames, ∀ b ∈ adjacentOf a, b ∈ genreNames) ∧
    (∀ a ∈ genreNames, ∀ b ∈ genreNames, (b ∈ adjacentOf a ↔ a ∈ adjacentOf b)) ∧
    (∀ a ∈ genreNames, adjacentOf a ≠ []) ∧
    (∀ a ∈ genreNames, ∀ b ∈ genreNames, b ∈ reachFrom a) := by decide

end InfiniteRadio
